import Mathlib

/-!
Shallow embedding of the Travault upload/persistence pipeline
(`src/services/fileProcessingService.ts`, `src/services/storageService.ts`,
`src/services/calendarService.ts`, `src/components/Dashboard.tsx`,
`src/components/dashboard/UploadSection.tsx`).

External effects (Supabase auth/database/storage queries, pdf.js rendering,
canvas encoding, the FileReader and the Gemini call) are modelled by
environment records: each field of the environment is the outcome the
corresponding `await` resolves (or rejects) with during the call under
study.  The service functions are then deterministic, executable Lean
functions of the environment and their arguments, translated line by line
from the TypeScript source.
-/

namespace Travault

/-- Result of a JavaScript `await`: the promise either resolves with a value
or rejects with an exception (carrying a message). -/
inductive Js (α : Type) where
  | ok (a : α)
  | threw (msg : String)
deriving DecidableEq

/-- A PostgREST error object as surfaced by the supabase client. -/
structure PgError where
  code : String
  message : String
deriving DecidableEq

/-- The authenticated user as returned by `supabase.auth.getUser()`. -/
structure AppUser where
  id : String
deriving DecidableEq

/-- Outcome of a supabase `.maybeSingle()` query: exactly one row, no row,
or an error (in which case the client's `data` field is `null`). -/
inductive MaybeSingle (α : Type) where
  | row (a : α)
  | noRow
  | failure (e : PgError)
deriving DecidableEq

/-- The `data` field of a `.maybeSingle()` response. -/
def MaybeSingle.getData {α : Type} : MaybeSingle α → Option α
  | .row a => some a
  | .noRow => none
  | .failure _ => none

/-- The `error` field of a `.maybeSingle()` response. -/
def MaybeSingle.getError {α : Type} : MaybeSingle α → Option PgError
  | .row _ => none
  | .noRow => none
  | .failure e => some e

/-- A browser `File` object: the fields the pipeline reads. -/
structure JsFile where
  name : String
  type : String
  size : Nat
  bytes : List Nat
deriving DecidableEq

/-- Does the character list `l` start with `pre`?  (Kernel-reducible model
of the JavaScript `startsWith` on exploded strings.) -/
def listStarts : List Char → List Char → Bool
  | _, [] => true
  | [], _ :: _ => false
  | x :: xs, y :: ys => x = y && listStarts xs ys

/-- Does the character list `l` contain `pat` as a contiguous sublist? -/
def listContains (l pat : List Char) : Bool :=
  match l with
  | [] => pat.isEmpty
  | _ :: xs => listStarts l pat || listContains xs pat

/-- JavaScript `s.startsWith(pre)`. -/
def jsStartsWith (s pre : String) : Bool :=
  listStarts s.data pre.data

/-- JavaScript `s.endsWith(suf)`. -/
def jsEndsWith (s suf : String) : Bool :=
  listStarts s.data.reverse suf.data.reverse

/-- JavaScript `s.includes(pat)`. -/
def containsSub (s pat : String) : Bool :=
  listContains s.data pat.data

/-- JavaScript `s.trim()`: strip whitespace from both ends. -/
def jsTrim (s : String) : String :=
  String.mk (((s.data.dropWhile Char.isWhitespace).reverse.dropWhile
    Char.isWhitespace).reverse)

/-- JavaScript `s.split(c)` on a single-character separator, on exploded
strings: splitting never yields the empty list. -/
def splitChar (c : Char) : List Char → List (List Char)
  | [] => [[]]
  | x :: xs =>
    let r := splitChar c xs
    if x = c then [] :: r
    else
      match r with
      | [] => [[x]]
      | y :: ys => (x :: y) :: ys

/-- JavaScript `s.split(c)` as strings. -/
def jsSplit (s : String) (c : Char) : List String :=
  (splitChar c s.data).map String.mk

/-- JavaScript `s.split(',')[1]` (used to strip the data-URL header),
defaulting to the empty string when there is no second element. -/
def afterComma (s : String) : String :=
  ((jsSplit s ',').drop 1).headD ""

/-- Truthiness of an optional JavaScript string: present and non-empty. -/
def strTruthy : Option String → Bool
  | some s => s ≠ ""
  | none => false

/-- JavaScript `a || b` on an optional string against a string default. -/
def strOrElse (a : Option String) (b : String) : String :=
  match a with
  | some s => if s = "" then b else s
  | none => b

/-! ### Duplicate gate: `checkDocumentExistsByHash`
(`src/services/fileProcessingService.ts` lines 397-417) -/

/-- The row shape of `select('id')` on the documents table. -/
structure DocIdRow where
  id : String
deriving DecidableEq

/-- Environment of one `checkDocumentExistsByHash` call: the auth lookup and
the `documents` query keyed by `(user_id, content_hash)`. -/
structure DupEnv where
  getUser : Js (Option AppUser)
  hashQuery : String → String → Js (MaybeSingle DocIdRow)

/-- `checkDocumentExistsByHash(hash)`: true only when a row with the same
`content_hash` exists for the current user; every failure path returns
false. -/
def checkDocumentExistsByHash (env : DupEnv) (hash : String) : Bool :=
  match env.getUser with
  | .threw _ => false
  | .ok none => false
  | .ok (some user) =>
    match env.hashQuery user.id hash with
    | .threw _ => false
    | .ok res =>
      match res.getError with
      | some e => if e.code ≠ "PGRST100" then false else res.getData.isSome
      | none => res.getData.isSome

/-- A duplicate-gate environment where the user is signed in and the query
finds a matching row. -/
def dupEnvFound : DupEnv :=
  { getUser := .ok (some ⟨"user-1"⟩)
    hashQuery := fun _ _ => .ok (.row ⟨"doc-1"⟩) }

/-! ### File normaliser: `compressImage`, `extractTextFromPDF`,
`generatePdfPreview`, `processFile`
(`src/services/fileProcessingService.ts` lines 45-232) -/

/-- Environment of the pdf.js calls made for one PDF file: the text content
of its pages, whether text extraction throws, and the outcome of rendering
the first page (`none` models a rendering failure or missing canvas
context, both caught by `generatePdfPreview`). -/
structure PdfEnv where
  pages : List String
  extractThrows : Bool
  renderOk : Option String

/-- The `fullText` accumulator of `extractTextFromPDF`: each scanned page's
text followed by a newline. -/
def joinPages (pages : List String) : String :=
  pages.foldl (fun acc p => acc ++ p ++ "\n") ""

/-- `extractTextFromPDF`: scan at most the first 5 pages; if the accumulated
text trims to fewer than 50 characters the PDF is treated as a scan and
`null` is returned; any exception is caught and also yields `null`. -/
def extractTextFromPDF (env : PdfEnv) : Option String :=
  if env.extractThrows then none
  else
    let maxPages := min env.pages.length 5
    let fullText := joinPages (env.pages.take maxPages)
    if (jsTrim fullText).length < 50 then none else some fullText

/-- The full text `extractTextFromPDF` accumulates before the length test:
the first `min numPages 5` pages joined with trailing newlines. -/
def pdfFullText (env : PdfEnv) : String :=
  joinPages (env.pages.take (min env.pages.length 5))

/-- `generatePdfPreview`: the first page rendered to a JPEG data URL; on any
failure the empty string is returned so the UI shows a fallback. -/
def generatePdfPreview (env : PdfEnv) : String :=
  match env.renderOk with
  | some dataUrl => dataUrl
  | none => ""

/-- Environment of the canvas/FileReader calls made for one raster image:
the decoded dimensions (`none` models `img.onerror`), canvas-context
availability, the `toBlob` result (`none` models a `null` blob), and the
data URL the FileReader produces for a file. -/
structure ImgEnv where
  decode : Option (ℚ × ℚ)
  ctxOk : Bool
  encodeResult : Option (Nat × List Nat)
  dataUrlOf : JsFile → String

/-- The dimension clamp of `compressImage`: bound the longer edge to
2000 px, preserving aspect ratio. -/
def resizeDims (w h : ℚ) : ℚ × ℚ :=
  if w > h ∧ w > 2000 then (2000, h * (2000 / w))
  else if h > 2000 then (w * (2000 / h), 2000)
  else (w, h)

/-- The arguments `compressImage` hands to canvas encoding: the (truncated)
canvas dimensions, the target media type and the quality. -/
structure EncodeReq where
  width : ℤ
  height : ℤ
  mime : String
  quality : ℚ
deriving DecidableEq

/-- Join character-list fragments with a separator (inverse of
`splitChar`). -/
def joinWith (sep : List Char) : List (List Char) → List Char
  | [] => []
  | [x] => x
  | x :: y :: ys => x ++ sep ++ joinWith sep (y :: ys)

/-- The file rename `file.name.replace(/\.[^/.]+$/, ".jpg")`: drop a final
dot-separated extension (when one exists and holds no slash or dot) and
append `.jpg`. -/
def replaceExtWithJpg (name : String) : String :=
  let parts := splitChar '.' name.data
  let ext := parts.getLastD []
  if parts.length ≥ 2 ∧ ext ≠ [] ∧ ¬ (ext.contains '/') then
    String.mk (joinWith ['.'] parts.dropLast ++ ['.', 'j', 'p', 'g'])
  else name

/-- `compressImage`, additionally reporting the encode request it issued (if
any): files at or below 1 MB pass through untouched; larger files are decoded,
clamped with `resizeDims`, and re-encoded as JPEG at quality 0.8; every
failure path resolves with the original file. -/
def compressImageT (env : ImgEnv) (file : JsFile) : JsFile × Option EncodeReq :=
  if file.size ≤ 1 * 1024 * 1024 then (file, none)
  else
    match env.decode with
    | none => (file, none)
    | some (w, h) =>
      if env.ctxOk = false then (file, none)
      else
        let dims := resizeDims w h
        let req : EncodeReq := ⟨⌊dims.1⌋, ⌊dims.2⌋, "image/jpeg", 4 / 5⟩
        match env.encodeResult with
        | some (sz, bs) =>
          (⟨replaceExtWithJpg file.name, "image/jpeg", sz, bs⟩, some req)
        | none => (file, some req)

/-- `compressImage` proper: the file it resolves with. -/
def compressImage (env : ImgEnv) (file : JsFile) : JsFile :=
  (compressImageT env file).1

/-- The record `processFile` resolves with. -/
structure ProcessedFile where
  content : String
  mimeType : String
  isText : Bool
  preview : String
  file : JsFile
  hash : String
deriving DecidableEq

/-- Environment of one `processFile` call: the SHA-256 hex digest function,
the pdf.js and canvas environments, and the outcomes of the mammoth and
`file.text()` awaits. -/
structure FsEnv where
  sha256hex : List Nat → String
  pdf : PdfEnv
  img : ImgEnv
  docxText : Js String
  plainText : Js String

/-- `processFile` (current revision, lines 153-232): hash, then route by
declared media type; note there is no rejection branch — a file matching no
branch falls through with empty AI content. -/
def processFile (env : FsEnv) (originalFile : JsFile) : Except String ProcessedFile :=
  let hash := env.sha256hex originalFile.bytes
  if originalFile.type = "application/pdf" then
    let preview := generatePdfPreview env.pdf
    match extractTextFromPDF env.pdf with
    | some extractedText =>
      .ok ⟨extractedText, "text/plain", true, preview, originalFile, hash⟩
    | none =>
      if preview ≠ "" then
        .ok ⟨afterComma preview, "image/jpeg", false, preview, originalFile, hash⟩
      else
        .ok ⟨"", originalFile.type, false, preview, originalFile, hash⟩
  else if jsStartsWith originalFile.type "image/" then
    let fileToUpload := compressImage env.img originalFile
    let base64Data := env.img.dataUrlOf fileToUpload
    .ok ⟨afterComma base64Data, "image/jpeg", false, base64Data, fileToUpload, hash⟩
  else if jsEndsWith originalFile.name ".docx" then
    match env.docxText with
    | .ok text => .ok ⟨text, "text/plain", true, "", originalFile, hash⟩
    | .threw m => .error m
  else if originalFile.type = "text/plain" then
    match env.plainText with
    | .ok t => .ok ⟨t, "text/plain", true, "", originalFile, hash⟩
    | .threw m => .error m
  else
    .ok ⟨"", originalFile.type, false, "", originalFile, hash⟩

/-- The record the earlier `processFile` revision resolves with
(lines 253-259). -/
structure ProcessedFileEarlier where
  content : String
  mimeType : String
  isText : Bool
  preview : Option String
  file : Option JsFile
deriving DecidableEq

/-- Environment of one earlier-revision `processFile` call. -/
structure FsEnvEarlier where
  convertPdf : Js String
  dataUrlOf : JsFile → Js String
  textOf : Js String
  docxText : Js String

/-- `processFile` (earlier revision, lines 261-341): PDF via
`convertPdfToImage`, images via FileReader, plain text, DOCX via mammoth,
and an explicit `Unsupported file type` rejection for everything else. -/
def processFileEarlier (env : FsEnvEarlier) (file : JsFile) :
    Except String ProcessedFileEarlier :=
  if file.type = "application/pdf" then
    match env.convertPdf with
    | .ok base64Image =>
      .ok ⟨afterComma base64Image, "image/png", false, some base64Image, some file⟩
    | .threw _ => .error "Failed to process PDF"
  else if jsStartsWith file.type "image/" then
    match env.dataUrlOf file with
    | .ok result => .ok ⟨afterComma result, file.type, false, some result, some file⟩
    | .threw m => .error m
  else if file.type = "text/plain" then
    match env.textOf with
    | .ok t => .ok ⟨t, "text/plain", true, none, some file⟩
    | .threw m => .error m
  else if jsEndsWith file.name ".docx" ∨
      file.type = "application/vnd.openxmlformats-officedocument.wordprocessingml.document" then
    match env.docxText with
    | .ok t => .ok ⟨t, "text/plain", true, none, some file⟩
    | .threw _ => .error "Failed to read Word document"
  else .error "Unsupported file type"

/-- A PDF file used as a concrete input in witnesses. -/
def pdfFile : JsFile := ⟨"ticket.pdf", "application/pdf", 5000, [1, 2, 3]⟩

/-- An image environment whose fields are never consulted (used when the
file under study is not a raster image). -/
def imgEnvUnused : ImgEnv := ⟨none, true, none, fun _ => ""⟩

/-- A `processFile` environment where both the PDF preview rendering and the
text extraction throw. -/
def fsEnvPdfFail : FsEnv :=
  { sha256hex := fun _ => "hash0"
    pdf := ⟨[], true, none⟩
    img := imgEnvUnused
    docxText := .ok ""
    plainText := .ok "" }

/-- A `processFile` environment for a scanned PDF: a five-character text
layer and a successfully rendered preview. -/
def fsEnvPdfScan : FsEnv :=
  { sha256hex := fun _ => "hash1"
    pdf := ⟨["short"], false, some "data:image/jpeg;base64,QUJD"⟩
    img := imgEnvUnused
    docxText := .ok ""
    plainText := .ok "" }

/-! ### Data model (`src/types.ts`) -/

/-- A reminder (`Reminder` in `types.ts`): a dated obligation, either
document-sourced or manual. -/
structure Reminder where
  id : String
  title : String
  description : Option String
  date : String
  time : Option String
  priority : String
  source : Option String
  docId : Option String
deriving DecidableEq

/-- Extracted metadata of a document (`ExtractedData` in `types.ts`; the
fields persistence and export read). -/
structure ExtractedData where
  title : String
  type : String
  summary : String
  eventDate : Option String
  expiryDate : Option String
  riskAnalysis : Option String
  translatedContent : Option String
  originalContent : Option String
deriving DecidableEq

/-- A document (`NomadDocument` in `types.ts`; the fields persistence and
export read). -/
structure NomadDocument where
  id : String
  fileName : String
  fileData : Option String
  file_path : Option String
  mimeType : String
  uploadDate : String
  contentHash : Option String
  translationLanguage : Option String
  extractedData : ExtractedData
  processedReminders : List Reminder
  isTextBased : Bool
deriving DecidableEq

/-! ### Calendar export: `downloadCalendarFile`
(`src/services/calendarService.ts`) -/

/-- `formatICSDate`: an all-day `DTSTART` from `YYYY-MM-DD`, or a timed one
when a (truthy) `HH:MM` time is given. -/
def formatICSDate (dateStr : String) (timeStr : Option String) : String :=
  let cleanDate := String.mk (dateStr.data.filter (fun c => c ≠ '-'))
  if strTruthy timeStr then
    "DTSTART:" ++ (cleanDate ++ "T" ++
      String.mk ((timeStr.getD "").data.filter (fun c => c ≠ ':')) ++ "00")
  else
    "DTSTART;VALUE=DATE:" ++ cleanDate

/-- The VEVENT lines `downloadCalendarFile` pushes for one document: one
event when the document has a truthy event date and one when it has a
truthy expiry date. -/
def docCalendarLines (now : String) (doc : NomadDocument) : List String :=
  (if strTruthy doc.extractedData.eventDate then
    ["BEGIN:VEVENT",
     "UID:" ++ (doc.id ++ "-event@travault.app"),
     "DTSTAMP:" ++ now,
     formatICSDate (doc.extractedData.eventDate.getD "") none,
     "SUMMARY:" ++ ("✈️ " ++ doc.extractedData.title),
     "DESCRIPTION:" ++ (doc.extractedData.summary ++ " (Type: " ++
       doc.extractedData.type ++ ")"),
     "END:VEVENT"]
  else []) ++
  (if strTruthy doc.extractedData.expiryDate then
    ["BEGIN:VEVENT",
     "UID:" ++ (doc.id ++ "-expiry@travault.app"),
     "DTSTAMP:" ++ now,
     formatICSDate (doc.extractedData.expiryDate.getD "") none,
     "SUMMARY:" ++ ("⚠️ Expiring: " ++ doc.extractedData.title),
     "DESCRIPTION:" ++ ("Document Expiry. " ++ doc.extractedData.summary),
     "END:VEVENT"]
  else [])

/-- The VEVENT lines `downloadCalendarFile` pushes for one reminder. -/
def reminderCalendarLines (now : String) (r : Reminder) : List String :=
  let priorityIcon :=
    if r.priority = "High" then "🔴"
    else if r.priority = "Medium" then "🟡" else "🔵"
  ["BEGIN:VEVENT",
   "UID:" ++ (r.id ++ "@travault.app"),
   "DTSTAMP:" ++ now,
   formatICSDate r.date r.time,
   "SUMMARY:" ++ (priorityIcon ++ " " ++ r.title),
   "DESCRIPTION:" ++ ("Travault Reminder. Priority: " ++ r.priority),
   "END:VEVENT"]

/-- The full `icsContent` line list built by `downloadCalendarFile` (the
`DTSTAMP` clock value is passed in as `now`). -/
def calendarLines (documents : List NomadDocument) (reminders : List Reminder)
    (now : String) : List String :=
  ["BEGIN:VCALENDAR", "VERSION:2.0", "PRODID:-//Travault//Nomad Assistant//EN",
    "CALSCALE:GREGORIAN"]
  ++ documents.flatMap (docCalendarLines now)
  ++ reminders.flatMap (reminderCalendarLines now)
  ++ ["END:VCALENDAR"]

/-- The UID lines of a produced calendar file. -/
def uidLines (lines : List String) : List String :=
  lines.filter (fun l => jsStartsWith l "UID:")

/-- The event identifiers the export derives from one document. -/
def docUids (d : NomadDocument) : List String :=
  (if strTruthy d.extractedData.eventDate then
    ["UID:" ++ (d.id ++ "-event@travault.app")] else [])
  ++ (if strTruthy d.extractedData.expiryDate then
    ["UID:" ++ (d.id ++ "-expiry@travault.app")] else [])

/-- A 2 MB PNG used as a concrete input for the compression claims. -/
def bigPngFile : JsFile := ⟨"scan.png", "image/png", 2097152, [7, 7]⟩

/-- An image environment in which the image fails to decode
(`img.onerror`). -/
def imgEnvLoadFails : ImgEnv :=
  ⟨none, true, none, fun _ => "data:image/png;base64,AAA"⟩

/-- An image environment in which a 3000×1000 image decodes, the canvas
context is available and JPEG encoding succeeds with a 120000-byte blob. -/
def imgEnvOk : ImgEnv :=
  ⟨some (3000, 1000), true, some (120000, [9, 9, 9]),
    fun _ => "data:image/jpeg;base64,WFla"⟩

/-! ### Persistence gateway: `saveDocumentToSupabase`
(`src/services/fileProcessingService.ts` lines 419-486) -/

/-- JavaScript `v || null` on an optional string: empty strings collapse to
null. -/
def optTruthy (o : Option String) : Option String :=
  if strTruthy o then o else none

/-- A row of the `documents` table (the columns the latest
`saveDocumentToSupabase` writes). -/
structure DocRow where
  id : String
  user_id : String
  title : String
  type : String
  summary : String
  event_date : Option String
  expiry_date : Option String
  extracted_data : ExtractedData
  file_path : Option String
  risk_analysis : Option String
  content_hash : Option String
  translated_content : Option String
  original_content : Option String
  translation_language : String
deriving DecidableEq

/-- A row of the `reminders` table. -/
structure RemRow where
  id : String
  document_id : String
  title : String
  description : Option String
  date : String
  time : Option String
  priority : String
  source : String
  user_id : String
deriving DecidableEq

/-- The relational store the persistence gateway manipulates. -/
structure DBState where
  documents : List DocRow
  reminders : List RemRow
deriving DecidableEq

/-- The database commands `saveDocumentToSupabase` issues, in order. -/
inductive DbOp where
  | upsertDocument (row : DocRow)
  | deleteRemindersFor (docId : String)
  | insertReminders (rows : List RemRow)
deriving DecidableEq

/-- Environment of one `saveDocumentToSupabase` call: the auth lookup and
the outcome of each database write. -/
structure SaveEnv where
  getUser : Js (Option AppUser)
  docUpsertError : Option PgError
  remDeleteOk : Bool
  remInsertError : Option PgError

/-- The `documents` row `saveDocumentToSupabase` upserts for `doc`. -/
def docRowOf (doc : NomadDocument) (userId : String) : DocRow :=
  { id := doc.id
    user_id := userId
    title := doc.extractedData.title
    type := doc.extractedData.type
    summary := doc.extractedData.summary
    event_date := optTruthy doc.extractedData.eventDate
    expiry_date := optTruthy doc.extractedData.expiryDate
    extracted_data := doc.extractedData
    file_path := optTruthy doc.file_path
    risk_analysis := optTruthy doc.extractedData.riskAnalysis
    content_hash := optTruthy doc.contentHash
    translated_content := optTruthy doc.extractedData.translatedContent
    original_content := optTruthy doc.extractedData.originalContent
    translation_language := strOrElse doc.translationLanguage "English" }

/-- SQL upsert on the `documents` table keyed by `id`. -/
def upsertRow (rows : List DocRow) (row : DocRow) : List DocRow :=
  if rows.any (fun r => r.id = row.id) then
    rows.map (fun r => if r.id = row.id then row else r)
  else rows ++ [row]

/-- The `reminders` payload row built for one reminder of `doc`. -/
def reminderRowOf (docId userId : String) (r : Reminder) : RemRow :=
  ⟨r.id, docId, r.title, r.description, r.date, r.time, r.priority, "document", userId⟩

/-- The error message thrown when the document upsert fails. -/
def docUpsertErrorMessage (e : PgError) : String :=
  if e.code = "42703" ∨ containsSub e.message "content_hash" ∨
      containsSub e.message "original_content" then
    "Database Error: Missing columns. Please run 'add_content_hash.txt', 'add_translation_columns.txt' and 'add_original_content.txt'."
  else "Database Error: " ++ e.message

/-- The error message thrown when the reminder insert fails. -/
def remInsertErrorMessage (e : PgError) : String :=
  if containsSub e.message "Could not find the 'user_id' column" ∨ e.code = "42703" then
    "Database Error: 'reminders' table is missing 'user_id' or 'description' column. Run 'fix_reminders_table.txt' and 'add_reminder_description.txt'."
  else "Failed to save reminders: " ++ e.message

/-- `saveDocumentToSupabase` (latest revision): upsert the document row;
then — only when the new reminder set is non-empty — delete the reminders
stored under the document id and insert the new set; every database error
is rethrown to the caller.  Returns the call result, the final store, and
the command trace. -/
def saveDocumentToSupabase (env : SaveEnv) (st : DBState) (doc : NomadDocument) :
    Except String DocRow × DBState × List DbOp :=
  match env.getUser with
  | .threw m => (.error m, st, [])
  | .ok none => (.error "User not authenticated", st, [])
  | .ok (some user) =>
    let row := docRowOf doc user.id
    match env.docUpsertError with
    | some e => (.error (docUpsertErrorMessage e), st, [.upsertDocument row])
    | none =>
      let st1 : DBState := { st with documents := upsertRow st.documents row }
      if 0 < doc.processedReminders.length then
        let rems2 :=
          if env.remDeleteOk then
            st1.reminders.filter (fun r => r.document_id ≠ doc.id)
          else st1.reminders
        let st2 : DBState := { st1 with reminders := rems2 }
        let payload := doc.processedReminders.map (reminderRowOf doc.id user.id)
        match env.remInsertError with
        | some e =>
          (.error (remInsertErrorMessage e), st2,
            [.upsertDocument row, .deleteRemindersFor doc.id, .insertReminders payload])
        | none =>
          (.ok row, { st2 with reminders := st2.reminders ++ payload },
            [.upsertDocument row, .deleteRemindersFor doc.id, .insertReminders payload])
      else (.ok row, st1, [.upsertDocument row])

/-- Sample extracted metadata used in concrete save/delete scenarios. -/
def edSample : ExtractedData :=
  ⟨"Flight to Lima", "Ticket", "A flight", none, none, none, none, none⟩

/-- A save environment where every database write succeeds. -/
def saveEnvOk : SaveEnv := ⟨.ok (some ⟨"user-1"⟩), none, true, none⟩

/-- A save environment where the reminder insert fails after the document
write succeeded. -/
def saveEnvRemFail : SaveEnv :=
  ⟨.ok (some ⟨"user-1"⟩), none, true, some ⟨"500", "insert failed"⟩⟩

/-- A reminder already stored under document `doc-1`. -/
def staleRem : RemRow :=
  ⟨"rem-0", "doc-1", "old reminder", none, "2025-01-01", none, "High", "document", "user-1"⟩

/-- A document persisted with an empty reminder set. -/
def docNoReminders : NomadDocument :=
  { id := "doc-1", fileName := "a.pdf", fileData := none, file_path := none
    mimeType := "application/pdf", uploadDate := "2025-05-01"
    contentHash := some "h1", translationLanguage := none
    extractedData := edSample, processedReminders := [], isTextBased := true }

/-- The same document carrying one fresh reminder. -/
def docOneReminder : NomadDocument :=
  { docNoReminders with processedReminders :=
      [⟨"rem-1", "check in", none, "2025-06-01", some "14:00", "High",
        some "document", some "doc-1"⟩] }

/-- A store already holding a reminder under `doc-1`. -/
def dbWithStale : DBState := ⟨[], [staleRem]⟩

/-! ### Document deletion: `deleteDocumentFromSupabase`
(`src/services/fileProcessingService.ts` lines 559-653) -/

/-- Outcome of `supabase.storage.remove` / a response field pair
`{ data, error }`: the names of the removed objects, or an error (in which
case `data` is null). -/
inductive StorageResult where
  | removed (names : List String)
  | failed (e : PgError)
deriving DecidableEq

/-- The storage and database commands `deleteDocumentFromSupabase`
issues, in order. -/
inductive DelOp where
  | storageRemove (path : String)
  | storageList (folder : String)
  | dbDelete (id : String)
deriving DecidableEq

/-- Environment of one `deleteDocumentFromSupabase` call. -/
structure DeleteEnv where
  getUser : Js (Option AppUser)
  fetchPath : Js (Option (Option String))
  parsePathname : String → Option String
  decodeURI : String → String
  removeObject : String → StorageResult
  listFiles : String → Except PgError (List String)
  dbDeleteError : Option String

/-- The path-cleaning steps of `deleteDocumentFromSupabase`: strip a full
URL down to the part after the `documents` segment, decode URI encoding,
drop leading slashes, and prepend the user folder when the path is a bare
file name outside it. -/
def cleanStoragePath (env : DeleteEnv) (userId raw : String) : String :=
  let fp1 :=
    if jsStartsWith raw "http" then
      match env.parsePathname raw with
      | some pathname =>
        let pathParts := jsSplit pathname '/'
        match pathParts.indexOf? "documents" with
        | some i =>
          String.mk (joinWith ['/'] ((pathParts.drop (i + 1)).map String.data))
        | none => raw
      | none => raw
    else raw
  let fp2 := env.decodeURI fp1
  let fp3 := String.mk (fp2.data.dropWhile (fun c => c = '/'))
  if ¬ jsStartsWith fp3 userId ∧ ¬ fp3.data.contains '/' then
    userId ++ "/" ++ fp3
  else fp3

/-- The storage-removal phase of `deleteDocumentFromSupabase`: a direct
remove, and — when it errors or removes zero objects — a "smart discovery"
listing of the user folder followed by a retry on the discovered path.
Returns the final `storageError` value and the commands issued. -/
def storageRemovalPhase (env : DeleteEnv) (userId filePath : String) :
    Option PgError × List DelOp :=
  let first := env.removeObject filePath
  let storageError0 : Option PgError :=
    match first with
    | .failed e => some e
    | .removed _ => none
  let needRetry : Bool :=
    match first with
    | .failed _ => true
    | .removed names => names.length = 0
  let rest : Option PgError × List DelOp :=
    if needRetry then
      let fileName := (jsSplit filePath '/').getLastD ""
      if fileName ≠ "" then
        match env.listFiles userId with
        | .ok files =>
          match files.find? (fun f => f = fileName) with
          | some m =>
            let foundPath := userId ++ "/" ++ m
            match env.removeObject foundPath with
            | .failed _ =>
              (storageError0, [.storageList userId, .storageRemove foundPath])
            | .removed _ => (none, [.storageList userId, .storageRemove foundPath])
          | none => (storageError0, [.storageList userId])
        | .error _ => (storageError0, [.storageList userId])
      else (storageError0, [])
    else (storageError0, [])
  (rest.1, .storageRemove filePath :: rest.2)

/-- `deleteDocumentFromSupabase` (latest revision): fetch the document's
storage path; when it is truthy, clean it and attempt storage removal (with
smart-discovery retry), logging but never failing on storage errors; then
delete the database row, throwing only when that database delete errors. -/
def deleteDocumentFromSupabase (env : DeleteEnv) (st : DBState) (id : String) :
    Except String Unit × DBState × List DelOp :=
  match env.getUser with
  | .threw m => (.error m, st, [])
  | .ok none => (.error "User not authenticated", st, [])
  | .ok (some user) =>
    match env.fetchPath with
    | .threw m => (.error m, st, [])
    | .ok doc? =>
      let storOps : List DelOp :=
        match doc? with
        | some (some fp) =>
          if fp ≠ "" then
            (storageRemovalPhase env user.id (cleanStoragePath env user.id fp)).2
          else []
        | _ => []
      match env.dbDeleteError with
      | some m => (.error ("Database delete failed: " ++ m), st, storOps ++ [.dbDelete id])
      | none =>
        (.ok (), { st with documents := st.documents.filter (fun d => d.id ≠ id) },
          storOps ++ [.dbDelete id])

/-- A delete environment in which the storage removal (and its retry
listing) fail, while the database delete succeeds. -/
def delEnvStorageFails : DeleteEnv :=
  { getUser := .ok (some ⟨"user-1"⟩)
    fetchPath := .ok (some (some "user-1/a.pdf"))
    parsePathname := fun _ => none
    decodeURI := fun s => s
    removeObject := fun _ => .failed ⟨"503", "storage down"⟩
    listFiles := fun _ => .error ⟨"503", "storage down"⟩
    dbDeleteError := none }

/-- A document row for `doc-1`, present before deletion. -/
def docRowToDelete : DocRow :=
  docRowOf docNoReminders "user-1"

/-! ### Retrieval: `loadDocumentsFromSupabase`
(`src/services/fileProcessingService.ts` lines 488-557) -/

/-- A `reminders` row as returned by the joined select. -/
structure LoadedRemRow where
  id : String
  title : String
  description : Option String
  date : String
  time : Option String
  priority : String
  source : String
deriving DecidableEq

/-- A `documents` row as returned by the joined select (the columns the
mapping reads). -/
structure LoadedDocRow where
  id : String
  title : Option String
  created_at : String
  file_path : Option String
  content_hash : Option String
  translated_content : Option String
  original_content : Option String
  translation_language : Option String
  extracted_data : ExtractedData
  risk_analysis : Option String
  reminders : List LoadedRemRow
deriving DecidableEq

/-- Environment of one `loadDocumentsFromSupabase` call: auth, the joined
select keyed by user id, and the signed-URL creation (path and validity
seconds). -/
structure LoadEnv where
  getUser : Js (Option AppUser)
  query : String → Js (Except PgError (List LoadedDocRow))
  signUrl : String → Nat → Js (Option String)

/-- `getMimeType` helper: map a file name's lower-cased extension to a
media type. -/
def getMimeType (fileName : String) : String :=
  if fileName = "" then "application/octet-stream"
  else
    let ext := String.mk (((jsSplit fileName '.').getLastD "").data.map Char.toLower)
    if ext = "pdf" then "application/pdf"
    else if ext = "jpg" ∨ ext = "jpeg" then "image/jpeg"
    else if ext = "png" then "image/png"
    else if ext = "webp" then "image/webp"
    else if ext = "txt" then "text/plain"
    else if ext = "docx" then
      "application/vnd.openxmlformats-officedocument.wordprocessingml.document"
    else if ext = "doc" then "application/msword"
    else "application/octet-stream"

/-- The reminder object the mapping builds, re-attached to its parent
document id. -/
def loadedReminderOf (docId : String) (r : LoadedRemRow) : Reminder :=
  ⟨r.id, r.title, r.description, r.date, r.time, r.priority, some r.source, some docId⟩

/-- Whether the mapping resolves the stored path to a signed URL: the path
is truthy and not already an `http` URL. -/
def needsSignedUrl (fp : Option String) : Bool :=
  match fp with
  | some p => p ≠ "" ∧ ¬ jsStartsWith p "http"
  | none => false

/-- The mapping of one joined row to a `NomadDocument`; `none` models the
signed-URL await throwing, which the surrounding catch turns into an empty
overall result. -/
def loadMapRow (env : LoadEnv) (d : LoadedDocRow) : Option NomadDocument :=
  let step : Js (Option String) :=
    if needsSignedUrl d.file_path then env.signUrl (d.file_path.getD "") 3600
    else .ok none
  match step with
  | .threw _ => none
  | .ok signed =>
    let fileUrl : Option String :=
      match signed with
      | some s => some s
      | none => d.file_path
    let fileName := strOrElse d.title "document"
    let mimeType := getMimeType (strOrElse d.file_path fileName)
    let isTextBased : Bool :=
      mimeType = "application/pdf" ∨ mimeType = "text/plain" ∨
        containsSub mimeType "wordprocessingml" ∨ containsSub mimeType "msword"
    some
      { id := d.id
        fileName := fileName
        fileData := fileUrl
        file_path := none
        mimeType := mimeType
        uploadDate := d.created_at
        contentHash := d.content_hash
        translationLanguage := d.translation_language
        extractedData :=
          { d.extracted_data with
            riskAnalysis := d.risk_analysis
            translatedContent := d.translated_content
            originalContent := d.original_content }
        processedReminders := d.reminders.map (loadedReminderOf d.id)
        isTextBased := isTextBased }

/-- The `Promise.all` over the row mapping: all rows map, or the first
thrown exception rejects the whole batch. -/
def mapRows (env : LoadEnv) : List LoadedDocRow → Option (List NomadDocument)
  | [] => some []
  | d :: ds =>
    match loadMapRow env d, mapRows env ds with
    | some doc, some docs => some (doc :: docs)
    | _, _ => none

/-- `loadDocumentsFromSupabase` (latest revision): every failure path — no
authenticated user, a query error, or an exception while mapping — returns
the empty list; on success each row is mapped with its reminders
re-attached and private paths resolved to one-hour signed URLs. -/
def loadDocumentsFromSupabase (env : LoadEnv) : List NomadDocument :=
  match env.getUser with
  | .threw _ => []
  | .ok none => []
  | .ok (some user) =>
    match env.query user.id with
    | .threw _ => []
    | .ok (.error _) => []
    | .ok (.ok rows) =>
      match mapRows env rows with
      | some docs => docs
      | none => []

/-- A placeholder document used as the out-of-range default when indexing
load results. -/
def emptyDoc : NomadDocument :=
  { id := "", fileName := "", fileData := none, file_path := none, mimeType := ""
    uploadDate := "", contentHash := none, translationLanguage := none
    extractedData := ⟨"", "", "", none, none, none, none, none⟩
    processedReminders := [], isTextBased := false }

/-- A placeholder row used as the out-of-range default when indexing query
results. -/
def emptyRow : LoadedDocRow :=
  { id := "", title := none, created_at := "", file_path := none
    content_hash := none, translated_content := none, original_content := none
    translation_language := none
    extracted_data := ⟨"", "", "", none, none, none, none, none⟩
    risk_analysis := none, reminders := [] }

/-- A joined row with one reminder and a private storage path. -/
def sampleLoadedRow : LoadedDocRow :=
  { id := "doc-9", title := some "Visa", created_at := "2025-04-01"
    file_path := some "user-1/visa.pdf"
    content_hash := some "h9", translated_content := none, original_content := none
    translation_language := some "English"
    extracted_data := edSample, risk_analysis := none
    reminders := [⟨"rem-9", "renew", none, "2025-07-01", none, "Medium", "document"⟩] }

/-- A load environment returning one row and signing paths
deterministically. -/
def loadEnvOk : LoadEnv :=
  { getUser := .ok (some ⟨"user-1"⟩)
    query := fun _ => .ok (.ok [sampleLoadedRow])
    signUrl := fun p _ => .ok (some ("https://signed.example/" ++ p)) }

/-! ### Upload pipeline: `UploadSection.handleFile` wrapping
`Dashboard.handleFileChange` (latest revisions). -/

/-- The externally visible effects of one upload, in order: the duplicate
query, the storage upload of the (processed) file, the AI call with the
normalised payload, and the database save. -/
inductive UpEffect where
  | dupQuery (hash : String)
  | storageUpload (file : JsFile)
  | aiCall (content : String) (mimeType : String) (isText : Bool)
  | dbSave (docId : String)
deriving DecidableEq

/-- What the user sees at the end of one upload attempt. -/
inductive UploadOutcome where
  | noFile
  | duplicateAlert (msg : String)
  | errorAlert (msg : String)
  | success (docId : String)
deriving DecidableEq

/-- Environment of one upload: the file-processing and duplicate-gate
environments, the authenticated user, the outcome of `analyzeDocument`, the
outcome of `saveDocumentToSupabase` (abstracted to its success or thrown
message), and the id `uuidv4()` mints for the new document. -/
structure DashEnv where
  fs : FsEnv
  dup : DupEnv
  user : Option AppUser
  analyze : Js ExtractedData
  saveResult : Except String Unit
  newDocId : String

/-- `Dashboard.handleFileChange` (latest revision): process the file,
upload the processed file to storage, call the AI, persist, and prepend the
new document to the list; the inner catch alerts with the raised message,
as does the outer one.  Returns the outcome, the effect trace, and the ids
of documents added to the list. -/
def handleFileChange (env : DashEnv) (file? : Option JsFile) :
    UploadOutcome × List UpEffect × List String :=
  match file?, env.user with
  | none, _ => (.noFile, [], [])
  | some _, none => (.noFile, [], [])
  | some file, some _ =>
    match processFile env.fs file with
    | .error m => (.errorAlert m, [], [])
    | .ok p =>
      match env.analyze with
      | .threw m =>
        (.errorAlert m,
          [.storageUpload p.file, .aiCall p.content p.mimeType p.isText], [])
      | .ok _ =>
        match env.saveResult with
        | .error m =>
          (.errorAlert m,
            [.storageUpload p.file, .aiCall p.content p.mimeType p.isText,
              .dbSave env.newDocId], [])
        | .ok _ =>
          (.success env.newDocId,
            [.storageUpload p.file, .aiCall p.content p.mimeType p.isText,
              .dbSave env.newDocId],
            [env.newDocId])

/-- `UploadSection.handleFile`: hash the file bytes (SHA-256 hex, the same
digest `processFile` computes), consult the duplicate gate, and either stop
with the dedicated duplicate alert or hand the event to
`Dashboard.handleFileChange`. -/
def handleFile (env : DashEnv) (file? : Option JsFile) :
    UploadOutcome × List UpEffect × List String :=
  match file? with
  | none => (.noFile, [], [])
  | some file =>
    let hash := env.fs.sha256hex file.bytes
    if checkDocumentExistsByHash env.dup hash then
      (.duplicateAlert "Duplicate Detected: You have already uploaded this exact file.",
        [.dupQuery hash], [])
    else
      let r := handleFileChange env (some file)
      (r.1, .dupQuery hash :: r.2.1, r.2.2)

/-- An unsupported input: an MP4 video. -/
def mp4File : JsFile := ⟨"clip.mp4", "video/mp4", 1000, [0, 1, 2]⟩

/-- A `processFile` environment for non-PDF, non-image inputs. -/
def fsEnvPlain : FsEnv :=
  { sha256hex := fun _ => "hashmp4"
    pdf := ⟨[], false, none⟩
    img := imgEnvUnused
    docxText := .ok ""
    plainText := .ok "" }

/-- A duplicate gate that finds no matching row. -/
def dupEnvNone : DupEnv :=
  { getUser := .ok (some ⟨"user-1"⟩), hashQuery := fun _ _ => .ok .noRow }

/-- An earlier-revision `processFile` environment (fields unused for
unsupported types). -/
def fsEnvEarlierMp4 : FsEnvEarlier :=
  ⟨.ok "", fun _ => .ok "", .ok "", .ok ""⟩

/-- An upload environment where the file is not a duplicate and every later
stage succeeds. -/
def dashEnvMp4 : DashEnv :=
  { fs := fsEnvPlain, dup := dupEnvNone, user := some ⟨"user-1"⟩
    analyze := .ok edSample, saveResult := .ok (), newDocId := "doc-new" }

/-- An upload environment whose duplicate gate finds a matching row. -/
def dashEnvDup : DashEnv :=
  { fs := fsEnvPlain, dup := dupEnvFound, user := some ⟨"user-1"⟩
    analyze := .ok edSample, saveResult := .ok (), newDocId := "doc-x" }

/-- C9: the duplicate check fails open — an unauthenticated session, a query
error, or an exception each yield `false`, and `true` is returned exactly
when the query actually finds a matching row. -/
theorem C9_duplicate_check_fails_open (env : DupEnv) (hash : String) :
    (∀ m, env.getUser = .threw m → checkDocumentExistsByHash env hash = false)
    ∧ (env.getUser = .ok none → checkDocumentExistsByHash env hash = false)
    ∧ (∀ u m, env.getUser = .ok (some u) → env.hashQuery u.id hash = .threw m →
        checkDocumentExistsByHash env hash = false)
    ∧ (∀ u e, env.getUser = .ok (some u) → env.hashQuery u.id hash = .ok (.failure e) →
        checkDocumentExistsByHash env hash = false)
    ∧ (checkDocumentExistsByHash env hash = true ↔
        ∃ u r, env.getUser = .ok (some u) ∧ env.hashQuery u.id hash = .ok (.row r)) := by
  refine ⟨?_, ?_, ?_, ?_, ?_⟩
  · intro m h; simp [checkDocumentExistsByHash, h]
  · intro h; simp [checkDocumentExistsByHash, h]
  · intro u m hu hq; simp [checkDocumentExistsByHash, hu, hq]
  · intro u e hu hq
    simp only [checkDocumentExistsByHash, hu, hq, MaybeSingle.getError, MaybeSingle.getData]
    split <;> rfl
  · constructor
    · intro h
      cases hu : env.getUser with
      | threw m => simp [checkDocumentExistsByHash, hu] at h
      | ok ou =>
        cases ou with
        | none => simp [checkDocumentExistsByHash, hu] at h
        | some u =>
          cases hq : env.hashQuery u.id hash with
          | threw m => simp [checkDocumentExistsByHash, hu, hq] at h
          | ok res =>
            cases res with
            | row r => exact ⟨u, r, rfl, hq⟩
            | noRow =>
              simp [checkDocumentExistsByHash, hu, hq, MaybeSingle.getError,
                MaybeSingle.getData] at h
            | failure e =>
              simp only [checkDocumentExistsByHash, hu, hq, MaybeSingle.getError,
                MaybeSingle.getData] at h
              split at h <;> simp_all
    · rintro ⟨u, r, hu, hq⟩
      simp [checkDocumentExistsByHash, hu, hq, MaybeSingle.getError, MaybeSingle.getData]

/-- Witness for C9 at a concrete environment: the check returns true when a
row is found. -/
theorem C9_duplicate_check_fails_open_witness :
    checkDocumentExistsByHash dupEnvFound "abc" = true :=
  (C9_duplicate_check_fails_open dupEnvFound "abc").2.2.2.2.mpr
    ⟨⟨"user-1"⟩, ⟨"doc-1"⟩, rfl, rfl⟩

/-- C7: for a PDF input, a preview-rendering failure yields an empty preview
while the pipeline still resolves, and an exception inside text extraction
falls back to the image branch instead of propagating out of
`processFile`. -/
theorem C7_pdf_failures_do_not_abort (env : FsEnv) (f : JsFile)
    (hpdf : f.type = "application/pdf") :
    (env.pdf.renderOk = none → ∃ p, processFile env f = .ok p ∧ p.preview = "")
    ∧ (env.pdf.extractThrows = true →
        ∃ p, processFile env f = .ok p ∧ p.isText = false) := by
  constructor
  · intro hr
    have hprev : generatePdfPreview env.pdf = "" := by simp [generatePdfPreview, hr]
    cases hx : extractTextFromPDF env.pdf with
    | some t =>
      refine ⟨⟨t, "text/plain", true, generatePdfPreview env.pdf, f,
        env.sha256hex f.bytes⟩, ?_, hprev⟩
      simp [processFile, hpdf, hx]
    | none =>
      refine ⟨⟨"", f.type, false, generatePdfPreview env.pdf, f,
        env.sha256hex f.bytes⟩, ?_, hprev⟩
      simp [processFile, hpdf, hx, hprev]
  · intro he
    have hx : extractTextFromPDF env.pdf = none := by
      simp [extractTextFromPDF, he]
    by_cases hp : generatePdfPreview env.pdf = ""
    · refine ⟨⟨"", f.type, false, generatePdfPreview env.pdf, f,
        env.sha256hex f.bytes⟩, ?_, rfl⟩
      simp [processFile, hpdf, hx, hp]
    · refine ⟨⟨afterComma (generatePdfPreview env.pdf), "image/jpeg", false,
        generatePdfPreview env.pdf, f, env.sha256hex f.bytes⟩, ?_, rfl⟩
      simp [processFile, hpdf, hx, hp]

/-- Witness for C7 at a concrete environment where rendering and extraction
both fail. -/
theorem C7_pdf_failures_do_not_abort_witness :
    (∃ p, processFile fsEnvPdfFail pdfFile = .ok p ∧ p.preview = "")
    ∧ (∃ p, processFile fsEnvPdfFail pdfFile = .ok p ∧ p.isText = false) :=
  ⟨(C7_pdf_failures_do_not_abort fsEnvPdfFail pdfFile rfl).1 rfl,
   (C7_pdf_failures_do_not_abort fsEnvPdfFail pdfFile rfl).2 rfl⟩

/-- C3: PDF routing by text-layer length — extraction looks only at the
first five pages; a trimmed text shorter than 50 characters routes through
the image branch (the rendered first page is used as AI input and preview,
`isText` false); a trimmed text of at least 50 characters routes through the
text branch (`isText` true, extracted text as AI input, preview still
rendered); at exactly 50 characters the text branch is taken. -/
theorem C3_pdf_threshold_routing (env : FsEnv) (f : JsFile)
    (hpdf : f.type = "application/pdf")
    (hnothrow : env.pdf.extractThrows = false) :
    ((jsTrim (pdfFullText env.pdf)).length < 50 →
      ∃ p, processFile env f = .ok p ∧ p.isText = false ∧
        (∀ u, env.pdf.renderOk = some u → u ≠ "" →
          p.preview = u ∧ p.content = afterComma u ∧ p.mimeType = "image/jpeg"))
    ∧ (50 ≤ (jsTrim (pdfFullText env.pdf)).length →
      ∃ p, processFile env f = .ok p ∧ p.isText = true ∧
        p.content = pdfFullText env.pdf ∧ p.mimeType = "text/plain" ∧
        p.preview = generatePdfPreview env.pdf)
    ∧ ((jsTrim (pdfFullText env.pdf)).length = 50 →
      ∃ p, processFile env f = .ok p ∧ p.isText = true)
    ∧ extractTextFromPDF env.pdf =
        extractTextFromPDF ⟨env.pdf.pages.take 5, env.pdf.extractThrows,
          env.pdf.renderOk⟩ := by
  have hchar : extractTextFromPDF env.pdf =
      if (jsTrim (pdfFullText env.pdf)).length < 50 then none
      else some (pdfFullText env.pdf) := by
    simp [extractTextFromPDF, hnothrow, pdfFullText]
  have htext : 50 ≤ (jsTrim (pdfFullText env.pdf)).length →
      ∃ p, processFile env f = .ok p ∧ p.isText = true ∧
        p.content = pdfFullText env.pdf ∧ p.mimeType = "text/plain" ∧
        p.preview = generatePdfPreview env.pdf := by
    intro hge
    have hx : extractTextFromPDF env.pdf = some (pdfFullText env.pdf) := by
      rw [hchar]; simp [Nat.not_lt.mpr hge]
    refine ⟨⟨pdfFullText env.pdf, "text/plain", true, generatePdfPreview env.pdf, f,
      env.sha256hex f.bytes⟩, ?_, rfl, rfl, rfl, rfl⟩
    simp [processFile, hpdf, hx]
  refine ⟨?_, htext, ?_, ?_⟩
  · intro hlt
    have hx : extractTextFromPDF env.pdf = none := by
      rw [hchar]; simp [hlt]
    cases hrend : env.pdf.renderOk with
    | none =>
      have hprev : generatePdfPreview env.pdf = "" := by
        simp [generatePdfPreview, hrend]
      refine ⟨⟨"", f.type, false, generatePdfPreview env.pdf, f,
        env.sha256hex f.bytes⟩, ?_, rfl, ?_⟩
      · simp [processFile, hpdf, hx, hprev]
      · intro u hu; exact absurd hu (by simp)
    | some u =>
      have hprev : generatePdfPreview env.pdf = u := by
        simp [generatePdfPreview, hrend]
      by_cases hue : u = ""
      · refine ⟨⟨"", f.type, false, generatePdfPreview env.pdf, f,
          env.sha256hex f.bytes⟩, ?_, rfl, ?_⟩
        · simp [processFile, hpdf, hx, hprev, hue]
        · intro u' hu' hne
          cases hu'
          exact absurd hue hne
      · refine ⟨⟨afterComma u, "image/jpeg", false, u, f,
          env.sha256hex f.bytes⟩, ?_, rfl, ?_⟩
        · simp [processFile, hpdf, hx, hprev, hue]
        · intro u' hu' hne
          cases hu'
          exact ⟨rfl, rfl, rfl⟩
  · intro heq
    obtain ⟨p, h1, h2, _⟩ := htext (le_of_eq heq.symm)
    exact ⟨p, h1, h2⟩
  · have hlists : List.take (5 ⊓ env.pdf.pages.length) (List.take 5 env.pdf.pages)
        = List.take (env.pdf.pages.length ⊓ 5) env.pdf.pages := by
      rw [List.take_take]
      congr 1
      omega
    simp [extractTextFromPDF, hlists]

/-- Witness for C3 at a concrete scanned PDF: five characters of text layer,
so the image branch is taken and the rendered raster is the AI input. -/
theorem C3_pdf_threshold_routing_witness :
    (jsTrim (pdfFullText fsEnvPdfScan.pdf)).length < 50 ∧
    (∃ p, processFile fsEnvPdfScan pdfFile = .ok p ∧ p.isText = false ∧
      (∀ u, fsEnvPdfScan.pdf.renderOk = some u → u ≠ "" →
        p.preview = u ∧ p.content = afterComma u ∧ p.mimeType = "image/jpeg")) :=
  ⟨by decide, (C3_pdf_threshold_routing fsEnvPdfScan pdfFile rfl rfl).1 (by decide)⟩

/-- Both dimensions produced by the clamp of `compressImage` are at most
2000. -/
theorem resizeDims_le (w h : ℚ) (hw : 0 < w) (hh : 0 < h) :
    (resizeDims w h).1 ≤ 2000 ∧ (resizeDims w h).2 ≤ 2000 := by
  unfold resizeDims
  split_ifs with h1 h2
  · obtain ⟨hgt, hw2⟩ := h1
    refine ⟨by norm_num, ?_⟩
    rw [mul_div_assoc', div_le_iff (by linarith)]
    nlinarith
  · refine ⟨?_, by norm_num⟩
    rw [mul_div_assoc', div_le_iff (by linarith)]
    rcases not_and_or.mp h1 with hc | hc
    · push_neg at hc; nlinarith
    · push_neg at hc; nlinarith
  · push_neg at h2
    refine ⟨?_, h2⟩
    rcases not_and_or.mp h1 with hc | hc
    · push_neg at hc; linarith
    · push_neg at hc; linarith

/-- C6 counterexample: a 2 MB PNG whose decode fails is passed through
unchanged — above the threshold, yet no JPEG re-encode happens, refuting
the unconditional "recompressed" claim. -/
theorem C6_image_compression_counterexample :
    1 * 1024 * 1024 < bigPngFile.size ∧
    compressImageT imgEnvLoadFails bigPngFile = (bigPngFile, none) ∧
    bigPngFile.type ≠ "image/jpeg" :=
  ⟨by decide, rfl, by decide⟩

/-- C6 (amended): at or below 1 MB the original passes through unchanged;
above 1 MB, whenever the image decodes, a canvas context exists, and JPEG
encoding succeeds, the file is re-encoded as a JPEG at quality 0.8 with
both canvas edges bounded to 2000 px, and the image branch of `processFile`
uses the compressed file both as the stored file and as the source of the
AI payload. -/
theorem C6_image_compression (env : ImgEnv) (f : JsFile) (w h : ℚ)
    (hw : 0 < w) (hh : 0 < h) :
    (f.size ≤ 1 * 1024 * 1024 → compressImageT env f = (f, none))
    ∧ (1 * 1024 * 1024 < f.size → env.decode = some (w, h) → env.ctxOk = true →
      ∀ sz bs, env.encodeResult = some (sz, bs) →
        ∃ req, compressImageT env f =
          (⟨replaceExtWithJpg f.name, "image/jpeg", sz, bs⟩, some req) ∧
          req.mime = "image/jpeg" ∧ req.quality = 4 / 5 ∧
          req.width ≤ 2000 ∧ req.height ≤ 2000)
    ∧ (∀ fenv : FsEnv, fenv.img = env → jsStartsWith f.type "image/" = true →
        f.type ≠ "application/pdf" →
        ∃ p, processFile fenv f = .ok p ∧ p.file = compressImage env f ∧
          p.content = afterComma (env.dataUrlOf (compressImage env f)) ∧
          p.preview = env.dataUrlOf (compressImage env f)) := by
  refine ⟨?_, ?_, ?_⟩
  · intro hle
    simp [compressImageT, hle]
  · intro hgt hdec hctx sz bs henc
    have hbw := (resizeDims_le w h hw hh).1
    have hbh := (resizeDims_le w h hw hh).2
    have hfw : ⌊(resizeDims w h).1⌋ ≤ 2000 := by
      have := Int.floor_le_floor hbw
      rwa [show ((2000 : ℚ)) = ((2000 : ℤ) : ℚ) by norm_num, Int.floor_intCast] at this
    have hfh : ⌊(resizeDims w h).2⌋ ≤ 2000 := by
      have := Int.floor_le_floor hbh
      rwa [show ((2000 : ℚ)) = ((2000 : ℤ) : ℚ) by norm_num, Int.floor_intCast] at this
    refine ⟨⟨⌊(resizeDims w h).1⌋, ⌊(resizeDims w h).2⌋, "image/jpeg", 4 / 5⟩, ?_,
      rfl, rfl, hfw, hfh⟩
    simp [compressImageT, Nat.not_le.mpr hgt, hdec, hctx, henc]
  · intro fenv heq himg hne
    refine ⟨⟨afterComma (env.dataUrlOf (compressImage env f)), "image/jpeg", false,
      env.dataUrlOf (compressImage env f), compressImage env f,
      fenv.sha256hex f.bytes⟩, ?_, rfl, rfl, rfl⟩
    simp [processFile, heq, himg, hne]

/-- Witness for C6 at a concrete environment: a 2 MB 3000×1000 PNG is
re-encoded as `scan.jpg` with an encode request bounded to 2000 px at
quality 0.8. -/
theorem C6_image_compression_witness :
    1 * 1024 * 1024 < bigPngFile.size ∧
    ∃ req, compressImageT imgEnvOk bigPngFile =
      (⟨"scan.jpg", "image/jpeg", 120000, [9, 9, 9]⟩, some req) ∧
      req.mime = "image/jpeg" ∧ req.quality = 4 / 5 ∧
      req.width ≤ 2000 ∧ req.height ≤ 2000 :=
  ⟨by decide,
    (C6_image_compression imgEnvOk bigPngFile 3000 1000 (by norm_num)
      (by norm_num)).2.1 (by decide) rfl rfl 120000 [9, 9, 9] rfl⟩

/-- Appending anything to a list keeps that list as a prefix. -/
theorem listStarts_of_append_eq (a b t : List Char) (h : a ++ b = t) :
    listStarts t a = true := by
  induction a generalizing t with
  | nil => cases t <;> rfl
  | cons x xs ih =>
    subst h
    have h2 := ih (xs ++ b) rfl
    simp [List.cons_append, listStarts, h2]

/-- A prefix test only looks at the first `pat.length` characters. -/
theorem listStarts_append_of_le (a l pat : List Char) (h : pat.length ≤ a.length) :
    listStarts (a ++ l) pat = listStarts a pat := by
  induction pat generalizing a with
  | nil => cases a <;> cases l <;> rfl
  | cons y ys ih =>
    cases a with
    | nil => simp at h
    | cons x xs =>
      simp only [List.cons_append, listStarts, List.append_eq]
      rw [ih xs (by simpa using h)]

/-- A string starting with `a` differs from any `t` that does not start
with `a`. -/
theorem append_ne_of_not_starts (a b t : String)
    (h : listStarts t.data a.data = false) : a ++ b ≠ t := by
  intro he
  have hd : a.data ++ b.data = t.data := by rw [← he]; exact rfl
  have h2 := listStarts_of_append_eq a.data b.data t.data hd
  rw [h] at h2
  exact Bool.noConfusion h2

/-- Boolean form of `append_ne_of_not_starts`. -/
theorem append_beq_false (a s t : String)
    (h : listStarts t.data a.data = false) : ((a ++ s) == t) = false :=
  beq_eq_false_iff_ne.mpr (append_ne_of_not_starts a s t h)

/-- `jsStartsWith` over an append whose head is at least as long as the
tested prefix. -/
theorem jsStartsWith_append_lit (a b pre : String)
    (h : pre.data.length ≤ a.data.length) :
    jsStartsWith (a ++ b) pre = jsStartsWith a pre := by
  unfold jsStartsWith
  have hd : (a ++ b).data = a.data ++ b.data := rfl
  rw [hd, listStarts_append_of_le _ _ _ h]

/-- A string of the form `pre ++ b` starts with `pre`. -/
theorem jsStartsWith_append_self (pre b : String) :
    jsStartsWith (pre ++ b) pre = true :=
  listStarts_of_append_eq _ _ _ rfl

/-- A `DTSTART` line is never the `BEGIN:VEVENT` line. -/
theorem formatICSDate_beq_begin (d : String) (t : Option String) :
    (formatICSDate d t == "BEGIN:VEVENT") = false := by
  unfold formatICSDate
  by_cases h : strTruthy t = true
  · simp only [h, if_true]
    exact append_beq_false _ _ _ (by decide)
  · simp only [Bool.not_eq_true] at h
    simp only [h, Bool.false_eq_true, if_false]
    exact append_beq_false _ _ _ (by decide)

/-- A `DTSTART` line is never a UID line. -/
theorem formatICSDate_not_uid (d : String) (t : Option String) :
    jsStartsWith (formatICSDate d t) "UID:" = false := by
  unfold formatICSDate
  by_cases h : strTruthy t = true
  · simp only [h, if_true]
    rw [jsStartsWith_append_lit _ _ _ (by decide)]
    decide
  · simp only [Bool.not_eq_true] at h
    simp only [h, Bool.false_eq_true, if_false]
    rw [jsStartsWith_append_lit _ _ _ (by decide)]
    decide

/-- One reminder block holds exactly one `BEGIN:VEVENT` line. -/
theorem count_begin_reminder (now : String) (r : Reminder) :
    List.count "BEGIN:VEVENT" (reminderCalendarLines now r) = 1 := by
  have hUID : ∀ s, (("UID:" ++ s) == "BEGIN:VEVENT") = false :=
    fun s => append_beq_false _ s _ (by decide)
  have hDT : ∀ s, (("DTSTAMP:" ++ s) == "BEGIN:VEVENT") = false :=
    fun s => append_beq_false _ s _ (by decide)
  have hSUM : ∀ s, (("SUMMARY:" ++ s) == "BEGIN:VEVENT") = false :=
    fun s => append_beq_false _ s _ (by decide)
  have hDESC : ∀ s, (("DESCRIPTION:" ++ s) == "BEGIN:VEVENT") = false :=
    fun s => append_beq_false _ s _ (by decide)
  have hB : (("BEGIN:VEVENT" : String) == "BEGIN:VEVENT") = true := by decide
  have hE : (("END:VEVENT" : String) == "BEGIN:VEVENT") = false := by decide
  simp [reminderCalendarLines, List.count_cons, hUID, hDT, hSUM, hDESC, hB, hE,
    formatICSDate_beq_begin]

/-- One document block holds one `BEGIN:VEVENT` line per truthy event date
and one per truthy expiry date. -/
theorem count_begin_doc (now : String) (d : NomadDocument) :
    List.count "BEGIN:VEVENT" (docCalendarLines now d) =
      (if strTruthy d.extractedData.eventDate then 1 else 0) +
      (if strTruthy d.extractedData.expiryDate then 1 else 0) := by
  have hUID : ∀ s, (("UID:" ++ s) == "BEGIN:VEVENT") = false :=
    fun s => append_beq_false _ s _ (by decide)
  have hDT : ∀ s, (("DTSTAMP:" ++ s) == "BEGIN:VEVENT") = false :=
    fun s => append_beq_false _ s _ (by decide)
  have hSUM : ∀ s, (("SUMMARY:" ++ s) == "BEGIN:VEVENT") = false :=
    fun s => append_beq_false _ s _ (by decide)
  have hDESC : ∀ s, (("DESCRIPTION:" ++ s) == "BEGIN:VEVENT") = false :=
    fun s => append_beq_false _ s _ (by decide)
  have hB : (("BEGIN:VEVENT" : String) == "BEGIN:VEVENT") = true := by decide
  have hE : (("END:VEVENT" : String) == "BEGIN:VEVENT") = false := by decide
  by_cases h1 : strTruthy d.extractedData.eventDate = true <;>
    by_cases h2 : strTruthy d.extractedData.expiryDate = true <;>
    simp [docCalendarLines, List.count_append, List.count_cons, h1, h2, hUID, hDT,
      hSUM, hDESC, hB, hE, formatICSDate_beq_begin]

/-- The UID lines of one reminder block. -/
theorem uidLines_reminder (now : String) (r : Reminder) :
    uidLines (reminderCalendarLines now r) = ["UID:" ++ (r.id ++ "@travault.app")] := by
  have hUID : ∀ s, jsStartsWith ("UID:" ++ s) "UID:" = true :=
    fun s => jsStartsWith_append_self _ _
  have hDT : ∀ s, jsStartsWith ("DTSTAMP:" ++ s) "UID:" = false := fun s => by
    rw [jsStartsWith_append_lit _ _ _ (by decide)]; decide
  have hSUM : ∀ s, jsStartsWith ("SUMMARY:" ++ s) "UID:" = false := fun s => by
    rw [jsStartsWith_append_lit _ _ _ (by decide)]; decide
  have hDESC : ∀ s, jsStartsWith ("DESCRIPTION:" ++ s) "UID:" = false := fun s => by
    rw [jsStartsWith_append_lit _ _ _ (by decide)]; decide
  have hB : jsStartsWith "BEGIN:VEVENT" "UID:" = false := by decide
  have hE : jsStartsWith "END:VEVENT" "UID:" = false := by decide
  simp [uidLines, reminderCalendarLines, List.filter_cons, hUID, hDT, hSUM, hDESC,
    hB, hE, formatICSDate_not_uid]

/-- The UID lines of one document block. -/
theorem uidLines_doc (now : String) (d : NomadDocument) :
    uidLines (docCalendarLines now d) = docUids d := by
  have hUID : ∀ s, jsStartsWith ("UID:" ++ s) "UID:" = true :=
    fun s => jsStartsWith_append_self _ _
  have hDT : ∀ s, jsStartsWith ("DTSTAMP:" ++ s) "UID:" = false := fun s => by
    rw [jsStartsWith_append_lit _ _ _ (by decide)]; decide
  have hSUM : ∀ s, jsStartsWith ("SUMMARY:" ++ s) "UID:" = false := fun s => by
    rw [jsStartsWith_append_lit _ _ _ (by decide)]; decide
  have hDESC : ∀ s, jsStartsWith ("DESCRIPTION:" ++ s) "UID:" = false := fun s => by
    rw [jsStartsWith_append_lit _ _ _ (by decide)]; decide
  have hB : jsStartsWith "BEGIN:VEVENT" "UID:" = false := by decide
  have hE : jsStartsWith "END:VEVENT" "UID:" = false := by decide
  by_cases h1 : strTruthy d.extractedData.eventDate = true <;>
    by_cases h2 : strTruthy d.extractedData.expiryDate = true <;>
    simp [uidLines, docCalendarLines, docUids, List.filter_append, List.filter_cons,
      h1, h2, hUID, hDT, hSUM, hDESC, hB, hE, formatICSDate_not_uid]

/-- `BEGIN:VEVENT` count over the document blocks. -/
theorem count_begin_docs (now : String) (docs : List NomadDocument) :
    List.count "BEGIN:VEVENT" (docs.flatMap (docCalendarLines now)) =
      docs.countP (fun d => strTruthy d.extractedData.eventDate)
      + docs.countP (fun d => strTruthy d.extractedData.expiryDate) := by
  induction docs with
  | nil => simp
  | cons d ds ih =>
    simp only [List.flatMap_cons, List.count_append, ih, count_begin_doc,
      List.countP_cons]
    by_cases h1 : strTruthy d.extractedData.eventDate = true <;>
      by_cases h2 : strTruthy d.extractedData.expiryDate = true <;>
      simp [h1, h2] <;> omega

/-- `BEGIN:VEVENT` count over the reminder blocks. -/
theorem count_begin_reminders (now : String) (rems : List Reminder) :
    List.count "BEGIN:VEVENT" (rems.flatMap (reminderCalendarLines now)) =
      rems.length := by
  induction rems with
  | nil => simp
  | cons r rs ih =>
    simp [List.flatMap_cons, List.count_append, ih, count_begin_reminder,
      Nat.add_comm]

/-- UID lines over the document blocks. -/
theorem uidLines_docs (now : String) (docs : List NomadDocument) :
    uidLines (docs.flatMap (docCalendarLines now)) = docs.flatMap docUids := by
  induction docs with
  | nil => simp [uidLines]
  | cons d ds ih =>
    simp only [List.flatMap_cons]
    rw [show uidLines (docCalendarLines now d ++ ds.flatMap (docCalendarLines now))
        = uidLines (docCalendarLines now d) ++ uidLines (ds.flatMap (docCalendarLines now))
      from List.filter_append _ _, ih, uidLines_doc]

/-- UID lines over the reminder blocks. -/
theorem uidLines_reminders (now : String) (rems : List Reminder) :
    uidLines (rems.flatMap (reminderCalendarLines now)) =
      rems.map (fun r => "UID:" ++ (r.id ++ "@travault.app")) := by
  induction rems with
  | nil => simp [uidLines]
  | cons r rs ih =>
    simp only [List.flatMap_cons, List.map_cons]
    rw [show uidLines (reminderCalendarLines now r ++ rs.flatMap (reminderCalendarLines now))
        = uidLines (reminderCalendarLines now r) ++ uidLines (rs.flatMap (reminderCalendarLines now))
      from List.filter_append _ _, ih, uidLines_reminder]
    rfl

/-- C8: the export emits exactly one VEVENT per document with a truthy
event date, one per document with a truthy expiry date and one per
reminder; the UID lines are exactly the identifiers derived from the
source-entity ids; and the UID lines do not depend on the clock, so two
exports over unchanged data agree on them. -/
theorem C8_calendar_export (documents : List NomadDocument)
    (reminders : List Reminder) (now now' : String) :
    List.count "BEGIN:VEVENT" (calendarLines documents reminders now) =
      documents.countP (fun d => strTruthy d.extractedData.eventDate)
      + documents.countP (fun d => strTruthy d.extractedData.expiryDate)
      + reminders.length
    ∧ uidLines (calendarLines documents reminders now) =
        documents.flatMap docUids
        ++ reminders.map (fun r => "UID:" ++ (r.id ++ "@travault.app"))
    ∧ uidLines (calendarLines documents reminders now) =
        uidLines (calendarLines documents reminders now') := by
  have huid : ∀ n : String, uidLines (calendarLines documents reminders n) =
      documents.flatMap docUids
      ++ reminders.map (fun r => "UID:" ++ (r.id ++ "@travault.app")) := by
    intro n
    unfold calendarLines uidLines
    rw [List.filter_append, List.filter_append, List.filter_append]
    have hhead : List.filter (fun l => jsStartsWith l "UID:")
        ["BEGIN:VCALENDAR", "VERSION:2.0", "PRODID:-//Travault//Nomad Assistant//EN",
          "CALSCALE:GREGORIAN"] = [] := by decide
    have hlast : List.filter (fun l => jsStartsWith l "UID:") ["END:VCALENDAR"] = [] := by
      decide
    rw [hhead, hlast]
    have h1 := uidLines_docs n documents
    have h2 := uidLines_reminders n reminders
    unfold uidLines at h1 h2
    rw [h1, h2]
    simp
  refine ⟨?_, huid now, (huid now).trans (huid now').symm⟩
  unfold calendarLines
  rw [List.count_append, List.count_append, List.count_append, count_begin_docs,
    count_begin_reminders]
  have hhead : List.count "BEGIN:VEVENT"
      ["BEGIN:VCALENDAR", "VERSION:2.0", "PRODID:-//Travault//Nomad Assistant//EN",
        "CALSCALE:GREGORIAN"] = 0 := by decide
  have hlast : List.count "BEGIN:VEVENT" ["END:VCALENDAR"] = 0 := by decide
  rw [hhead, hlast]
  omega

/-- C2 counterexample: persisting a document whose new reminder set is
empty leaves a pre-existing reminder stored under that document id in
place, and no delete command is issued — refuting the unconditional
delete-then-insert claim. -/
theorem C2_save_document_counterexample :
    staleRem.document_id = docNoReminders.id
    ∧ (saveDocumentToSupabase saveEnvOk dbWithStale docNoReminders).2.1.reminders
        = [staleRem]
    ∧ (saveDocumentToSupabase saveEnvOk dbWithStale docNoReminders).2.2
        = [DbOp.upsertDocument (docRowOf docNoReminders "user-1")] :=
  ⟨rfl, rfl, rfl⟩

/-- C2 (amended): for a signed-in user and a non-empty reminder set, the
save upserts the document row, deletes the reminders stored under that
document id and inserts the new set, in that order; a reminder-insert
failure after the successful document write surfaces as an error; a
document-upsert failure surfaces as an error with the store untouched. -/
theorem C2_save_document (env : SaveEnv) (st : DBState) (doc : NomadDocument)
    (u : AppUser) (hu : env.getUser = .ok (some u))
    (hne : doc.processedReminders ≠ []) :
    (env.docUpsertError = none →
      (saveDocumentToSupabase env st doc).2.2 =
        [.upsertDocument (docRowOf doc u.id), .deleteRemindersFor doc.id,
          .insertReminders (doc.processedReminders.map (reminderRowOf doc.id u.id))]
      ∧ (saveDocumentToSupabase env st doc).2.1.documents =
          upsertRow st.documents (docRowOf doc u.id))
    ∧ (∀ e, env.docUpsertError = none → env.remInsertError = some e →
        (saveDocumentToSupabase env st doc).1 = .error (remInsertErrorMessage e))
    ∧ (env.docUpsertError = none → env.remInsertError = none →
        env.remDeleteOk = true →
        (saveDocumentToSupabase env st doc).1 = .ok (docRowOf doc u.id)
        ∧ (saveDocumentToSupabase env st doc).2.1.reminders =
            st.reminders.filter (fun r => r.document_id ≠ doc.id)
            ++ doc.processedReminders.map (reminderRowOf doc.id u.id))
    ∧ (∀ e, env.docUpsertError = some e →
        (saveDocumentToSupabase env st doc).1 = .error (docUpsertErrorMessage e)
        ∧ (saveDocumentToSupabase env st doc).2.1 = st) := by
  have hlen : 0 < doc.processedReminders.length := List.length_pos.mpr hne
  refine ⟨?_, ?_, ?_, ?_⟩
  · intro hd
    cases hrem : env.remInsertError <;>
      simp [saveDocumentToSupabase, hu, hd, hrem, hlen]
  · intro e hd hrem
    simp [saveDocumentToSupabase, hu, hd, hrem, hlen]
  · intro hd hrem hdel
    simp [saveDocumentToSupabase, hu, hd, hrem, hdel, hlen]
  · intro e hd
    simp [saveDocumentToSupabase, hu, hd]

/-- Witness for C2: in a concrete environment where the reminder insert
fails after the document write succeeded, the failure is surfaced to the
caller as an error. -/
theorem C2_save_document_witness :
    (saveDocumentToSupabase saveEnvRemFail dbWithStale docOneReminder).1 =
      .error (remInsertErrorMessage ⟨"500", "insert failed"⟩) :=
  (C2_save_document saveEnvRemFail dbWithStale docOneReminder ⟨"user-1"⟩ rfl
    (by decide)).2.1 ⟨"500", "insert failed"⟩ rfl rfl

/-- The storage-removal phase always begins with the direct remove on the
cleaned path. -/
theorem storageRemovalPhase_head (env : DeleteEnv) (uid p : String) :
    ∃ rest, (storageRemovalPhase env uid p).2 = DelOp.storageRemove p :: rest :=
  ⟨_, rfl⟩

/-- C5: document deletion attempts the storage-object removal whenever a
truthy path is stored, a storage failure never blocks the database delete
(the row is gone from the store and the call still succeeds), and a
database-delete failure is raised as an error. -/
theorem C5_delete_document (env : DeleteEnv) (st : DBState) (id : String)
    (u : AppUser) (d? : Option (Option String))
    (hu : env.getUser = .ok (some u)) (hf : env.fetchPath = .ok d?) :
    (∀ fp, d? = some (some fp) → fp ≠ "" →
      DelOp.storageRemove (cleanStoragePath env u.id fp)
        ∈ (deleteDocumentFromSupabase env st id).2.2)
    ∧ (env.dbDeleteError = none →
      (deleteDocumentFromSupabase env st id).1 = .ok ()
      ∧ (deleteDocumentFromSupabase env st id).2.1.documents =
          st.documents.filter (fun d => d.id ≠ id)
      ∧ (∀ d ∈ (deleteDocumentFromSupabase env st id).2.1.documents, d.id ≠ id)
      ∧ DelOp.dbDelete id ∈ (deleteDocumentFromSupabase env st id).2.2)
    ∧ (∀ m, env.dbDeleteError = some m →
        (deleteDocumentFromSupabase env st id).1 =
          .error ("Database delete failed: " ++ m)
        ∧ DelOp.dbDelete id ∈ (deleteDocumentFromSupabase env st id).2.2) := by
  refine ⟨?_, ?_, ?_⟩
  · intro fp hdq hfp
    obtain ⟨rest, hrest⟩ := storageRemovalPhase_head env u.id (cleanStoragePath env u.id fp)
    cases hdb : env.dbDeleteError with
    | none => simp [deleteDocumentFromSupabase, hu, hf, hdq, hdb, hfp, hrest]
    | some m => simp [deleteDocumentFromSupabase, hu, hf, hdq, hdb, hfp, hrest]
  · intro hdb
    refine ⟨?_, ?_, ?_, ?_⟩ <;>
      simp [deleteDocumentFromSupabase, hu, hf, hdb, List.mem_filter]
  · intro m hdb
    constructor <;> simp [deleteDocumentFromSupabase, hu, hf, hdb]

/-- Witness for C5 at a concrete environment where every storage call
fails: the removal is still attempted, the call succeeds, and the document
row is gone. -/
theorem C5_delete_document_witness :
    DelOp.storageRemove (cleanStoragePath delEnvStorageFails "user-1" "user-1/a.pdf")
      ∈ (deleteDocumentFromSupabase delEnvStorageFails ⟨[docRowToDelete], []⟩ "doc-1").2.2
    ∧ (deleteDocumentFromSupabase delEnvStorageFails ⟨[docRowToDelete], []⟩ "doc-1").1 = .ok ()
    ∧ (deleteDocumentFromSupabase delEnvStorageFails ⟨[docRowToDelete], []⟩
        "doc-1").2.1.documents = [] := by
  have h := C5_delete_document delEnvStorageFails ⟨[docRowToDelete], []⟩ "doc-1"
    ⟨"user-1"⟩ (some (some "user-1/a.pdf")) rfl rfl
  refine ⟨h.1 "user-1/a.pdf" rfl (by decide), (h.2.1 rfl).1, ?_⟩
  rw [(h.2.1 rfl).2.1]
  rfl

/-- C10: retrieval never throws — an unauthenticated session, a query
error, or an exception while mapping each return the empty list (so
persistence failures look like an empty library); on success each mapped
document carries its row's id, its reminders re-attached with `docId`
pointing at the parent row, and a truthy non-`http` storage path resolved
through `createSignedUrl` with 3600-second validity (falling back to the
raw path when no signed URL is produced). -/
theorem C10_load_documents (env : LoadEnv) :
    (∀ m, env.getUser = .threw m → loadDocumentsFromSupabase env = [])
    ∧ (env.getUser = .ok none → loadDocumentsFromSupabase env = [])
    ∧ (∀ u m, env.getUser = .ok (some u) → env.query u.id = .threw m →
        loadDocumentsFromSupabase env = [])
    ∧ (∀ u e, env.getUser = .ok (some u) → env.query u.id = .ok (.error e) →
        loadDocumentsFromSupabase env = [])
    ∧ (∀ u rows, env.getUser = .ok (some u) → env.query u.id = .ok (.ok rows) →
        mapRows env rows = none → loadDocumentsFromSupabase env = [])
    ∧ (∀ u rows docs, env.getUser = .ok (some u) → env.query u.id = .ok (.ok rows) →
        mapRows env rows = some docs → loadDocumentsFromSupabase env = docs)
    ∧ (∀ d doc, loadMapRow env d = some doc →
        doc.id = d.id
        ∧ doc.processedReminders = d.reminders.map (loadedReminderOf d.id)
        ∧ (∀ r ∈ doc.processedReminders, r.docId = some d.id)
        ∧ (∀ p, d.file_path = some p → p ≠ "" → jsStartsWith p "http" = false →
            doc.fileData =
              (match env.signUrl p 3600 with
               | .ok (some s) => some s
               | .ok none => some p
               | .threw _ => some p))) := by
  refine ⟨?_, ?_, ?_, ?_, ?_, ?_, ?_⟩
  · intro m h; simp [loadDocumentsFromSupabase, h]
  · intro h; simp [loadDocumentsFromSupabase, h]
  · intro u m hu hq; simp [loadDocumentsFromSupabase, hu, hq]
  · intro u e hu hq; simp [loadDocumentsFromSupabase, hu, hq]
  · intro u rows hu hq hm; simp [loadDocumentsFromSupabase, hu, hq, hm]
  · intro u rows docs hu hq hm; simp [loadDocumentsFromSupabase, hu, hq, hm]
  · intro d doc hsome
    cases hneed : needsSignedUrl d.file_path with
    | true =>
      cases hsig : env.signUrl (d.file_path.getD "") 3600 with
      | threw m =>
        simp [loadMapRow, hneed, hsig] at hsome
      | ok signed =>
        simp only [loadMapRow, hneed, if_true, hsig, Option.some.injEq] at hsome
        subst hsome
        refine ⟨rfl, rfl, ?_, ?_⟩
        · intro r hr
          simp only [List.mem_map] at hr
          obtain ⟨r0, _, rfl⟩ := hr
          rfl
        · intro p hp hpne hhttp
          rw [hp] at hsig
          simp only [Option.getD_some] at hsig
          cases signed with
          | some s => simp [hsig]
          | none => simp [hsig, hp]
    | false =>
      simp only [loadMapRow, hneed, Bool.false_eq_true, if_false,
        Option.some.injEq] at hsome
      subst hsome
      refine ⟨rfl, rfl, ?_, ?_⟩
      · intro r hr
        simp only [List.mem_map] at hr
        obtain ⟨r0, _, rfl⟩ := hr
        rfl
      · intro p hp hpne hhttp
        exfalso
        rw [hp] at hneed
        simp [needsSignedUrl, hpne, hhttp] at hneed

/-- Witness for C10 at a concrete environment: one row loads, and its
private path is resolved to the signed URL produced for 3600 seconds. -/
theorem C10_load_documents_witness :
    loadDocumentsFromSupabase loadEnvOk =
      [(loadMapRow loadEnvOk sampleLoadedRow).getD emptyDoc]
    ∧ ((loadMapRow loadEnvOk sampleLoadedRow).getD emptyDoc).fileData =
        some "https://signed.example/user-1/visa.pdf" := by
  have h := C10_load_documents loadEnvOk
  constructor
  · exact h.2.2.2.2.2.1 ⟨"user-1"⟩ [sampleLoadedRow]
      [(loadMapRow loadEnvOk sampleLoadedRow).getD emptyDoc] rfl rfl (by rfl)
  · have h7 := h.2.2.2.2.2.2 sampleLoadedRow
      ((loadMapRow loadEnvOk sampleLoadedRow).getD emptyDoc) (by rfl)
    have h4 := h7.2.2.2 "user-1/visa.pdf" rfl (by decide) (by decide)
    exact h4.trans (by rfl)

/-- C1: when the duplicate gate reports a match for the file's SHA-256
fingerprint, the upload stops after the duplicate query — no storage
upload, no AI call, no database save — shows the dedicated duplicate
message (not a generic error alert), and adds no document to the list. -/
theorem C1_duplicate_gate (env : DashEnv) (f : JsFile)
    (hdup : checkDocumentExistsByHash env.dup (env.fs.sha256hex f.bytes) = true) :
    handleFile env (some f) =
      (.duplicateAlert "Duplicate Detected: You have already uploaded this exact file.",
        [.dupQuery (env.fs.sha256hex f.bytes)], [])
    ∧ (∀ e ∈ (handleFile env (some f)).2.1, e = .dupQuery (env.fs.sha256hex f.bytes))
    ∧ (handleFile env (some f)).2.2 = []
    ∧ (∀ m, (handleFile env (some f)).1 ≠ .errorAlert m)
    ∧ (∀ p, UpEffect.storageUpload p ∉ (handleFile env (some f)).2.1)
    ∧ (∀ c mt b, UpEffect.aiCall c mt b ∉ (handleFile env (some f)).2.1)
    ∧ (∀ i, UpEffect.dbSave i ∉ (handleFile env (some f)).2.1) := by
  have h : handleFile env (some f) =
      (.duplicateAlert "Duplicate Detected: You have already uploaded this exact file.",
        [.dupQuery (env.fs.sha256hex f.bytes)], []) := by
    simp [handleFile, hdup]
  refine ⟨h, ?_, ?_, ?_, ?_, ?_, ?_⟩ <;> rw [h] <;> simp

/-- Witness for C1 at a concrete environment whose duplicate gate finds a
row: the pipeline stops with the dedicated duplicate alert. -/
theorem C1_duplicate_gate_witness :
    checkDocumentExistsByHash dashEnvDup.dup (dashEnvDup.fs.sha256hex mp4File.bytes)
      = true
    ∧ handleFile dashEnvDup (some mp4File) =
      (.duplicateAlert "Duplicate Detected: You have already uploaded this exact file.",
        [.dupQuery "hashmp4"], []) :=
  ⟨rfl, (C1_duplicate_gate dashEnvDup mp4File rfl).1⟩

/-- C4 (code evaluated at the failing input): the current `processFile`
resolves an unsupported MP4 with empty AI content instead of rejecting it,
the earlier revision threw `Unsupported file type` for the same input, and
the pipeline then proceeds to the storage upload and the AI network call. -/
theorem C4_unsupported_type_not_rejected :
    processFile fsEnvPlain mp4File =
      .ok ⟨"", "video/mp4", false, "", mp4File, "hashmp4"⟩
    ∧ processFileEarlier fsEnvEarlierMp4 mp4File = .error "Unsupported file type"
    ∧ UpEffect.storageUpload mp4File ∈ (handleFile dashEnvMp4 (some mp4File)).2.1
    ∧ UpEffect.aiCall "" "video/mp4" false ∈ (handleFile dashEnvMp4 (some mp4File)).2.1
    ∧ (handleFile dashEnvMp4 (some mp4File)).1 = .success "doc-new" := by
  refine ⟨rfl, rfl, ?_, ?_, rfl⟩ <;> decide

end Travault
